import Mathlib

/-!
Shallow embedding of the staff hand-off and queueing subsystem of the
mtom-ai customer-support chat platform.

Sources embedded here:
- src/backend/src/services/aiService.ts (second unit: StaffService and its
  InMemoryStaffStore; the LLM client itself is an external collaborator)
- src/backend/src/services/queueService.ts (InMemoryQueueStore, QueueService)
- src/backend/src/services/socketService.ts (SocketService event handlers and
  the SessionService unit bundled in the same file)

JavaScript Maps preserve insertion order and update-in-place on existing
keys, so each Map is embedded as an association list with exactly those
semantics.  Dates are embedded as Nat timestamps threaded in explicitly
wherever the source calls new Date(); uuid keys of queue items are fresh on
every insertion, so the queue Map is embedded as a plain list in insertion
order.  currentChatCount and maxConcurrentChats are embedded as Int so that
the lower bound 0 is a genuine statement (the source uses JS numbers and
Math.max(0, _)).  Fields that no embedded operation reads (emails, names,
wait-time display, customer snapshots, uuids of messages) are omitted.
-/

namespace Mtom

/-- Staff presence status, from the StaffUser type. -/
inductive StaffStatus
  | online
  | offline
  | busy
  | away
deriving DecidableEq, Repr

/-- Queue priority of a waiting session. -/
inductive Priority
  | low
  | medium
  | high
deriving DecidableEq, Repr

/-- Assignment state machine: assigned (initial), active, completed (terminal). -/
inductive AssignmentStatus
  | assigned
  | active
  | completed
deriving DecidableEq, Repr

/-- Conversation session status, from the ChatSession type. -/
inductive SessionStatus
  | active
  | waiting_for_staff
  | with_staff
  | resolved
  | escalated
deriving DecidableEq, Repr

/-- Staff directory entry (StaffUser), load-relevant fields. -/
structure StaffUser where
  id : String
  status : StaffStatus
  maxConcurrentChats : Int
  currentChatCount : Int
deriving DecidableEq, Repr

/-- Queue entry (ChatQueue); waitTime is derived at display time and omitted. -/
structure ChatQueue where
  sessionId : String
  priority : Priority
  createdAt : Nat
deriving DecidableEq, Repr

/-- Assignment ledger record (StaffAssignment). -/
structure StaffAssignment where
  sessionId : String
  staffId : String
  assignedAt : Nat
  status : AssignmentStatus
deriving DecidableEq, Repr

/-- Lookup in a JS Map embedded as an association list. -/
def alGet {α : Type} : List (String × α) → String → Option α
  | [], _ => none
  | (k, v) :: rest, key => if k = key then some v else alGet rest key

/-- Map.set semantics: update in place if the key is present, else append. -/
def alSet {α : Type} : List (String × α) → String → α → List (String × α)
  | [], key, v => [(key, v)]
  | (k, w) :: rest, key, v =>
    if k = key then (k, v) :: rest else (k, w) :: alSet rest key v

/-- Map.values in insertion order. -/
def alValues {α : Type} (m : List (String × α)) : List α := m.map Prod.snd

/-- The InMemoryStaffStore map: staffId to StaffUser. -/
abbrev StaffStore := List (String × StaffUser)

/-- InMemoryStaffStore.findById. -/
def findById (s : StaffStore) (staffId : String) : Option StaffUser := alGet s staffId

/-- StaffService.getAllStaff via InMemoryStaffStore.getAllStaff. -/
def getAllStaff (s : StaffStore) : List StaffUser := alValues s

/-- InMemoryStaffStore.getOnlineStaff: filter status online. -/
def getOnlineStaff (s : StaffStore) : List StaffUser :=
  (alValues s).filter (fun st => decide (st.status = StaffStatus.online))

/-- StaffService.getAvailableStaff: online staff further filtered to
online and below capacity (the source repeats the online test). -/
def getAvailableStaff (s : StaffStore) : List StaffUser :=
  (getOnlineStaff s).filter
    (fun st =>
      decide (st.status = StaffStatus.online ∧ st.currentChatCount < st.maxConcurrentChats))

/-- StaffService.updateStatus via InMemoryStaffStore.updateStaff
(lastActive touch omitted: no embedded operation reads it). -/
def updateStatus (s : StaffStore) (staffId : String) (st : StaffStatus) : StaffStore :=
  match alGet s staffId with
  | none => s
  | some u => alSet s staffId { u with status := st }

/-- StaffService.assignChat: returns false without mutation when the staff
member is unknown or currentChatCount has reached maxConcurrentChats,
otherwise increments the count. -/
def assignChat (s : StaffStore) (staffId : String) : Bool × StaffStore :=
  match alGet s staffId with
  | none => (false, s)
  | some u =>
    if u.currentChatCount ≥ u.maxConcurrentChats then (false, s)
    else (true, alSet s staffId { u with currentChatCount := u.currentChatCount + 1 })

/-- StaffService.unassignChat: Math.max(0, count - 1), false only when the
staff member is unknown. -/
def unassignChat (s : StaffStore) (staffId : String) : Bool × StaffStore :=
  match alGet s staffId with
  | none => (false, s)
  | some u =>
    (true, alSet s staffId { u with currentChatCount := max 0 (u.currentChatCount - 1) })

/-- The InMemoryQueueStore queue Map; uuid keys are fresh so it is a list in
insertion order. -/
abbrev QueueStore := List ChatQueue

/-- InMemoryQueueStore.addToQueue: unconditionally inserts a fresh item. -/
def addToQueue (q : QueueStore) (sessionId : String) (priority : Priority)
    (createdAt : Nat) : ChatQueue × QueueStore :=
  let item : ChatQueue := { sessionId := sessionId, priority := priority, createdAt := createdAt }
  (item, q ++ [item])

/-- InMemoryQueueStore.removeFromQueue: deletes the first item (in insertion
order) whose sessionId matches. -/
def removeFromQueue : QueueStore → String → Bool × QueueStore
  | [], _ => (false, [])
  | item :: rest, sid =>
    if item.sessionId = sid then (true, rest)
    else
      let r := removeFromQueue rest sid
      (r.1, item :: r.2)

/-- The priorityOrder table of the getQueue comparator. -/
def priorityOrder : Priority → Nat
  | Priority.high => 3
  | Priority.medium => 2
  | Priority.low => 1

/-- The order induced by the getQueue comparator: higher priority rank first,
then earlier createdAt first. -/
def queueRel (a b : ChatQueue) : Prop :=
  priorityOrder b.priority < priorityOrder a.priority ∨
    (priorityOrder a.priority = priorityOrder b.priority ∧ a.createdAt ≤ b.createdAt)

instance : DecidableRel queueRel := fun a b => by
  unfold queueRel; exact inferInstance

instance : IsTotal ChatQueue queueRel := by
  constructor
  intro a b
  unfold queueRel
  omega

instance : IsTrans ChatQueue queueRel := by
  constructor
  intro a b c hab hbc
  unfold queueRel at hab hbc ⊢
  omega

/-- InMemoryQueueStore.getQueue: the queue items sorted by the comparator
(the derived waitTime display field is omitted).  The source uses the
engine's stable Array.prototype.sort; insertion sort is stable and agrees
with it on this comparator. -/
def getQueue (q : QueueStore) : List ChatQueue := List.insertionSort queueRel q

/-- The assignments Map of InMemoryQueueStore: sessionId to StaffAssignment. -/
abbrev AssignStore := List (String × StaffAssignment)

/-- InMemoryQueueStore.assignSession: overwrites any record under this
sessionId with a fresh assignment in status assigned. -/
def assignSession (m : AssignStore) (sessionId staffId : String) (now : Nat) :
    StaffAssignment × AssignStore :=
  let a : StaffAssignment :=
    { sessionId := sessionId, staffId := staffId, assignedAt := now,
      status := AssignmentStatus.assigned }
  (a, alSet m sessionId a)

/-- InMemoryQueueStore.getAssignment. -/
def getAssignment (m : AssignStore) (sessionId : String) : Option StaffAssignment :=
  alGet m sessionId

/-- InMemoryQueueStore.updateAssignmentStatus. -/
def updateAssignmentStatus (m : AssignStore) (sessionId : String)
    (st : AssignmentStatus) : Bool × AssignStore :=
  match alGet m sessionId with
  | none => (false, m)
  | some a => (true, alSet m sessionId { a with status := st })

/-- InMemoryQueueStore.updateAssignment with the updates transferChat passes:
staffId and assignedAt. -/
def updateAssignment (m : AssignStore) (sessionId toStaffId : String) (now : Nat) :
    Bool × AssignStore :=
  match alGet m sessionId with
  | none => (false, m)
  | some a => (true, alSet m sessionId { a with staffId := toStaffId, assignedAt := now })

/-- The combined in-memory state behind QueueService: its own queue and
assignment Maps plus the StaffService store it mutates. -/
structure SysState where
  queue : QueueStore
  assignments : AssignStore
  staff : StaffStore
deriving DecidableEq, Repr

/-- The result shape of QueueService assignment operations. -/
structure AssignResult where
  success : Bool
  assignment : Option StaffAssignment := none
  error : Option String := none
deriving DecidableEq, Repr

/-- The result shape of QueueService.transferChat. -/
structure TransferResult where
  success : Bool
  error : Option String := none
deriving DecidableEq, Repr

/-- The availableStaff.reduce of assignNextChat: keep the accumulator unless
the current element is strictly less loaded, so the first element attaining
the minimum load wins. -/
def chooseBest : StaffUser → List StaffUser → StaffUser
  | best, [] => best
  | best, cur :: rest =>
    chooseBest (if cur.currentChatCount < best.currentChatCount then cur else best) rest

/-- QueueService.assignNextChat: take the head of the sorted queue, pick the
least-loaded available staff member, increment their load, record the
assignment and remove the head from the queue. -/
def assignNextChat (s : SysState) (now : Nat) : AssignResult × SysState :=
  match getQueue s.queue with
  | [] => ({ success := false, error := some "No chats in queue" }, s)
  | nextChat :: _ =>
    match getAvailableStaff s.staff with
    | [] => ({ success := false, error := some "No available staff" }, s)
    | h :: t =>
      let bestStaff := chooseBest h t
      let r := assignChat s.staff bestStaff.id
      if r.1 then
        let a := assignSession s.assignments nextChat.sessionId bestStaff.id now
        let q := removeFromQueue s.queue nextChat.sessionId
        ({ success := true, assignment := some a.1 },
          { queue := q.2, assignments := a.2, staff := r.2 })
      else
        ({ success := false, error := some "Failed to assign chat to staff" },
          { s with staff := r.2 })

/-- QueueService.assignChatToStaff: manual assignment of a given session to a
given staff member; checks only that the target exists and is below
capacity, then overwrites whatever assignment the session already had. -/
def assignChatToStaff (s : SysState) (sessionId staffId : String) (now : Nat) :
    AssignResult × SysState :=
  match (getAllStaff s.staff).find? (fun u => decide (u.id = staffId)) with
  | none => ({ success := false, error := some "Staff member not found" }, s)
  | some targetStaff =>
    if targetStaff.currentChatCount ≥ targetStaff.maxConcurrentChats then
      ({ success := false, error := some "Staff member at maximum capacity" }, s)
    else
      let r := assignChat s.staff staffId
      if r.1 then
        let a := assignSession s.assignments sessionId staffId now
        let q := removeFromQueue s.queue sessionId
        ({ success := true, assignment := some a.1 },
          { queue := q.2, assignments := a.2, staff := r.2 })
      else
        ({ success := false, error := some "Failed to assign chat to staff" },
          { s with staff := r.2 })

/-- QueueService.completeAssignment: if any assignment record exists for the
session (whatever its status), set it to completed and decrement the
recorded staff member's load. -/
def completeAssignment (s : SysState) (sessionId : String) : Bool × SysState :=
  match getAssignment s.assignments sessionId with
  | none => (false, s)
  | some a =>
    let u := updateAssignmentStatus s.assignments sessionId AssignmentStatus.completed
    let r := unassignChat s.staff a.staffId
    (true, { s with assignments := u.2, staff := r.2 })

/-- QueueService.transferChat: mismatch and target checks, then decrement the
source, increment the target (rolling back on failure) and rewrite the
assignment record in place. -/
def transferChat (s : SysState) (sessionId fromStaffId toStaffId : String) (now : Nat) :
    TransferResult × SysState :=
  match getAssignment s.assignments sessionId with
  | none => ({ success := false, error := some "Assignment not found or staff mismatch" }, s)
  | some a =>
    if a.staffId ≠ fromStaffId then
      ({ success := false, error := some "Assignment not found or staff mismatch" }, s)
    else
      match (getAllStaff s.staff).find? (fun u => decide (u.id = toStaffId)) with
      | none => ({ success := false, error := some "Target staff member not found" }, s)
      | some staff =>
        if staff.currentChatCount ≥ staff.maxConcurrentChats then
          ({ success := false, error := some "Target staff member at maximum capacity" }, s)
        else
          let d := unassignChat s.staff fromStaffId
          let r := assignChat d.2 toStaffId
          if r.1 then
            let u := updateAssignment s.assignments sessionId toStaffId now
            ({ success := true }, { s with staff := r.2, assignments := u.2 })
          else
            let rb := assignChat r.2 fromStaffId
            ({ success := false, error := some "Failed to assign to new staff member" },
              { s with staff := rb.2 })

/-- QueueService.checkAndAssign: run assignNextChat exactly when the queue is
nonempty and some staff member is available. -/
def checkAndAssign (s : SysState) (now : Nat) : SysState :=
  if s.queue.length > 0 then
    match getAvailableStaff s.staff with
    | [] => s
    | _ :: _ => (assignNextChat s now).2
  else s

/-- Message roles stored by SessionService.addMessage. -/
inductive MsgRole
  | user
  | assistant
  | system
deriving DecidableEq, Repr

/-- A stored chat message (uuid, timestamps and metadata omitted). -/
structure ChatMessage where
  content : String
  role : MsgRole
deriving DecidableEq, Repr

/-- A conversation session (customerInfo omitted). -/
structure ChatSession where
  id : String
  messages : List ChatMessage
  status : SessionStatus
deriving DecidableEq, Repr

/-- The InMemorySessionStore sessions Map. -/
abbrev SessionStore := List (String × ChatSession)

/-- SessionService.addMessage via InMemorySessionStore.addMessage: appends to
the session's message list when the session exists, else stores nothing. -/
def addMessage (ss : SessionStore) (sessionId content : String) (role : MsgRole) :
    SessionStore :=
  match alGet ss sessionId with
  | none => ss
  | some s =>
    alSet ss sessionId
      { s with messages := s.messages ++ [{ content := content, role := role }] }

/-- SessionService.updateSessionStatus: sets the status when the session
exists, else a no-op. -/
def updateSessionStatus (ss : SessionStore) (sessionId : String) (st : SessionStatus) :
    SessionStore :=
  match alGet ss sessionId with
  | none => ss
  | some s => alSet ss sessionId { s with status := st }

/-- Observable emissions of the SocketService handlers (the wire events each
handler sends, with the fields the claims are about). -/
inductive Emit
  | newMessage (sessionId content : String) (role : MsgRole)
  | staffMessageSent (sessionId : String)
  | staffStatusChanged (staffId : String) (status : StaffStatus)
  | chatAssigned (staffId sessionId : String)
  | staffJoined (sessionId staffId : String)
  | assignmentFailed (error : Option String)
  | chatCompleted (sessionId : String)
  | addedToQueue (sessionId : String)
deriving DecidableEq, Repr

/-- The state the SocketService handlers act on: the session store, the
queue/assignment/staff state, and a count of AI subsystem invocations (the
AI itself is an external collaborator boundary). -/
structure World where
  sessions : SessionStore
  sys : SysState
  aiCalls : Nat
deriving DecidableEq, Repr

/-- The role field of a send_message payload. -/
inductive ClientRole
  | staff
  | customer
deriving DecidableEq, Repr

/-- The send_message handler of SocketService.setupSocketHandlers.  The
message is stored and broadcast to the session room; for a customer message
the handler fetches the session and, whenever it exists, invokes
AIService.generateResponse (counted in aiCalls; aiContent stands for the
external collaborator's reply), stores the reply and broadcasts it.  The
handler never reads the session's status. -/
def sendMessage (w : World) (sessionId msg : String) (role : ClientRole)
    (aiContent : String) : World × List Emit :=
  let messageRole :=
    match role with
    | ClientRole.staff => MsgRole.assistant
    | ClientRole.customer => MsgRole.user
  let sessions1 := addMessage w.sessions sessionId msg messageRole
  let emits1 := [Emit.newMessage sessionId msg messageRole]
  match role with
  | ClientRole.customer =>
    match alGet sessions1 sessionId with
    | some _ =>
      let sessions2 := addMessage sessions1 sessionId aiContent MsgRole.assistant
      ({ w with sessions := sessions2, aiCalls := w.aiCalls + 1 },
        emits1 ++ [Emit.newMessage sessionId aiContent MsgRole.assistant])
    | none => ({ w with sessions := sessions1 }, emits1)
  | ClientRole.staff =>
    ({ w with sessions := sessions1 }, emits1 ++ [Emit.staffMessageSent sessionId])

/-- The staff_status_update handler: update the staff member's status and
broadcast staff_status_changed; it performs no queue or assignment
operation. -/
def staffStatusUpdate (w : World) (staffId : String) (st : StaffStatus) :
    World × List Emit :=
  ({ w with sys := { w.sys with staff := updateStatus w.sys.staff staffId st } },
    [Emit.staffStatusChanged staffId st])

/-- The complete_chat handler: complete the assignment, mark the event's
session resolved, and notify; it performs no further assignment. -/
def completeChat (w : World) (sessionId : String) : World × List Emit :=
  let c := completeAssignment w.sys sessionId
  let sessions1 := updateSessionStatus w.sessions sessionId SessionStatus.resolved
  ({ w with sys := c.2, sessions := sessions1 }, [Emit.chatCompleted sessionId])

/-- The assign_chat handler: manual assignment when the payload carries a
staffId, otherwise assignNextChat; on success the status update, the
chat_assigned notification and the staff_joined notification all use the
sessionId carried in the event, not the one in the new assignment. -/
def assignChatHandler (w : World) (sessionId : String) (staffId : Option String)
    (now : Nat) : World × List Emit :=
  let res :=
    match staffId with
    | some sid => assignChatToStaff w.sys sessionId sid now
    | none => assignNextChat w.sys now
  match res.1.assignment, res.1.success with
  | some a, true =>
    let sessions1 := updateSessionStatus w.sessions sessionId SessionStatus.with_staff
    ({ w with sys := res.2, sessions := sessions1 },
      [Emit.chatAssigned a.staffId sessionId, Emit.staffJoined sessionId a.staffId])
  | _, _ => ({ w with sys := res.2 }, [Emit.assignmentFailed res.1.error])

/-- The request_staff handler: enqueue, mark the session waiting_for_staff,
notify, then checkAndAssign. -/
def requestStaff (w : World) (sessionId : String) (priority : Priority) (now : Nat) :
    World × List Emit :=
  let q := addToQueue w.sys.queue sessionId priority now
  let sys1 : SysState := { w.sys with queue := q.2 }
  let sessions1 := updateSessionStatus w.sessions sessionId SessionStatus.waiting_for_staff
  let sys2 := checkAndAssign sys1 now
  ({ w with sys := sys2, sessions := sessions1 }, [Emit.addedToQueue sessionId])

/-- A call into the StaffService load interface: incrementLoad is
assignChat, decrementLoad is unassignChat. -/
inductive StaffOp
  | inc (staffId : String)
  | dec (staffId : String)
deriving DecidableEq, Repr

/-- Apply one load call to the staff store. -/
def applyOp (s : StaffStore) : StaffOp → StaffStore
  | StaffOp.inc i => (assignChat s i).2
  | StaffOp.dec i => (unassignChat s i).2

/-- Apply a sequence of load calls left to right. -/
def applyOps (s : StaffStore) (ops : List StaffOp) : StaffStore := ops.foldl applyOp s

/-- The load invariant of the staff directory: every stored staff member has
0 ≤ currentChatCount ≤ maxConcurrentChats. -/
def StoreInv (s : StaffStore) : Prop :=
  ∀ kv ∈ s, 0 ≤ kv.2.currentChatCount ∧ kv.2.currentChatCount ≤ kv.2.maxConcurrentChats

/-- The dequeue step performed by assignNextChat: the head of the sorted
queue, and the store with that head's first occurrence removed. -/
def dequeueHead (q : QueueStore) : Option (ChatQueue × QueueStore) :=
  match getQueue q with
  | [] => none
  | h :: _ => some (h, (removeFromQueue q h.sessionId).2)

/-- The sessionIds obtained by dequeuing up to n times. -/
def dequeueSessions : Nat → QueueStore → List String
  | 0, _ => []
  | n + 1, q =>
    match dequeueHead q with
    | none => []
    | some hq => hq.1.sessionId :: dequeueSessions n hq.2

/-- An online staff member with free capacity. -/
def staffA : StaffUser :=
  { id := "A", status := StaffStatus.online, maxConcurrentChats := 5, currentChatCount := 0 }

/-- A second online staff member with free capacity. -/
def staffB : StaffUser :=
  { id := "B", status := StaffStatus.online, maxConcurrentChats := 5, currentChatCount := 0 }

/-- A one-member staff store with capacity 2 and load 0. -/
def c5Store : StaffStore :=
  [("A", { id := "A", status := StaffStatus.online, maxConcurrentChats := 2,
            currentChatCount := 0 })]

/-- Three increments (the third exceeds capacity) then three decrements (the
third hits the floor at zero). -/
def c5Ops : List StaffOp :=
  [StaffOp.inc "A", StaffOp.inc "A", StaffOp.inc "A",
    StaffOp.dec "A", StaffOp.dec "A", StaffOp.dec "A"]

/-- A queue-service state with staff A and B, empty queue and ledger. -/
def baseState : SysState :=
  { queue := [], assignments := [], staff := [("A", staffA), ("B", staffB)] }

/-- Session S1 assigned to A, then session S2 assigned to A (A's load is 2). -/
def c2Assigned : SysState :=
  (assignChatToStaff (assignChatToStaff baseState "S1" "A" 0).2 "S2" "A" 1).2

/-- c2Assigned after one completeAssignment of S1. -/
def c2Once : SysState := (completeAssignment c2Assigned "S1").2

/-- c2Assigned after two completeAssignments of S1 in a row. -/
def c2Twice : SysState := (completeAssignment c2Once "S1").2

/-- Session S1 assigned to A (A's load is 1, B's is 0). -/
def c3Assigned : SysState := (assignChatToStaff baseState "S1" "A" 0).2

/-- The queue after enqueuing sessions L (low, t=0), H (high, t=1) and
M (medium, t=2) in that order. -/
def c6Queue : QueueStore :=
  (addToQueue (addToQueue (addToQueue [] "L" Priority.low 0).2 "H" Priority.high 1).2
    "M" Priority.medium 2).2

/-- A state with S1 assigned to A, A holding one chat, and B at capacity. -/
def c7State : SysState :=
  { queue := [],
    assignments :=
      [("S1",
        { sessionId := "S1", staffId := "A", assignedAt := 0,
          status := AssignmentStatus.assigned })],
    staff :=
      [("A", { staffA with currentChatCount := 1 }),
       ("B", { staffB with maxConcurrentChats := 1, currentChatCount := 1 })] }

/-- The assignment record held in c7State. -/
def c7Asg : StaffAssignment :=
  { sessionId := "S1", staffId := "A", assignedAt := 0, status := AssignmentStatus.assigned }

/-- The staff record of B in c7State. -/
def c7B : StaffUser := { staffB with maxConcurrentChats := 1, currentChatCount := 1 }

/-- Three online staff members with loads 1, 0, 0: the first minimal-load
candidate is c9B. -/
def c9A : StaffUser :=
  { id := "A", status := StaffStatus.online, maxConcurrentChats := 5, currentChatCount := 1 }

/-- Second candidate, load 0. -/
def c9B : StaffUser :=
  { id := "B", status := StaffStatus.online, maxConcurrentChats := 5, currentChatCount := 0 }

/-- Third candidate, load 0 (ties with c9B; c9B is encountered first). -/
def c9C : StaffUser :=
  { id := "C", status := StaffStatus.online, maxConcurrentChats := 5, currentChatCount := 0 }

/-- A state with one queued session and candidates c9A, c9B, c9C. -/
def c9State : SysState :=
  { queue := [{ sessionId := "S1", priority := Priority.medium, createdAt := 0 }],
    assignments := [],
    staff := [("A", c9A), ("B", c9B), ("C", c9C)] }

/-- A world with session S1 in status with_staff, assigned to staff A. -/
def c1World : World :=
  { sessions :=
      [("S1", { id := "S1", messages := [], status := SessionStatus.with_staff })],
    sys :=
      { queue := [],
        assignments :=
          [("S1",
            { sessionId := "S1", staffId := "A", assignedAt := 0,
              status := AssignmentStatus.assigned })],
        staff := [("A", { staffA with currentChatCount := 1 })] },
    aiCalls := 0 }

/-- A world with session S1 queued and waiting while the only staff member
is offline with free capacity. -/
def c8World : World :=
  { sessions :=
      [("S1", { id := "S1", messages := [], status := SessionStatus.waiting_for_staff })],
    sys :=
      { queue := [{ sessionId := "S1", priority := Priority.medium, createdAt := 0 }],
        assignments := [],
        staff := [("A", { staffA with status := StaffStatus.offline })] },
    aiCalls := 0 }

/-- A world with session S1 queued while staff A is at capacity handling the
assigned session S2. -/
def c8WorldB : World :=
  { sessions :=
      [("S1", { id := "S1", messages := [], status := SessionStatus.waiting_for_staff }),
       ("S2", { id := "S2", messages := [], status := SessionStatus.with_staff })],
    sys :=
      { queue := [{ sessionId := "S1", priority := Priority.medium, createdAt := 0 }],
        assignments :=
          [("S2",
            { sessionId := "S2", staffId := "A", assignedAt := 0,
              status := AssignmentStatus.assigned })],
        staff := [("A", { staffA with maxConcurrentChats := 1, currentChatCount := 1 })] },
    aiCalls := 0 }

/-- A world where the queue head is session H while the assign_chat event
names session E. -/
def c10World : World :=
  { sessions :=
      [("E", { id := "E", messages := [], status := SessionStatus.active }),
       ("H", { id := "H", messages := [], status := SessionStatus.waiting_for_staff })],
    sys :=
      { queue := [{ sessionId := "H", priority := Priority.medium, createdAt := 0 }],
        assignments := [],
        staff := [("A", staffA)] },
    aiCalls := 0 }

/-- The queue head of c10World. -/
def c10Head : ChatQueue := { sessionId := "H", priority := Priority.medium, createdAt := 0 }

/-- The assignment created by auto-assignment in c10World at time 5. -/
def c10Asg : StaffAssignment :=
  { sessionId := "H", staffId := "A", assignedAt := 5, status := AssignmentStatus.assigned }

/-! Helper lemmas about the association-list embedding of JS Maps. -/

/-- A successful lookup returns a stored pair. -/
theorem alGet_mem {α : Type} (key : String) (v : α) :
    ∀ s : List (String × α), alGet s key = some v → (key, v) ∈ s := by
  intro s
  induction s with
  | nil => intro h; simp [alGet] at h
  | cons kv rest ih =>
    obtain ⟨k, w⟩ := kv
    intro h
    rw [alGet] at h
    split at h
    · rename_i hk
      injection h with hv
      subst hk
      subst hv
      exact List.mem_cons_self _ _
    · exact List.mem_cons_of_mem _ (ih h)

/-- Every pair stored after a Map.set is the written pair or was already
stored. -/
theorem mem_alSet {α : Type} (key : String) (v : α) :
    ∀ (s : List (String × α)) (x : String × α),
      x ∈ alSet s key v → x = (key, v) ∨ x ∈ s := by
  intro s
  induction s with
  | nil =>
    intro x hx
    rw [alSet] at hx
    exact Or.inl (List.mem_singleton.mp hx)
  | cons kv rest ih =>
    obtain ⟨k, w⟩ := kv
    intro x hx
    rw [alSet] at hx
    split at hx
    · rename_i hk
      rcases List.mem_cons.mp hx with h1 | h2
      · subst hk
        exact Or.inl h1
      · exact Or.inr (List.mem_cons_of_mem _ h2)
    · rcases List.mem_cons.mp hx with h1 | h2
      · exact Or.inr (h1 ▸ List.mem_cons_self _ _)
      · rcases ih x h2 with h | h
        · exact Or.inl h
        · exact Or.inr (List.mem_cons_of_mem _ h)

/-- Map.set preserves the load invariant when the written record satisfies
it. -/
theorem StoreInv_alSet {s : StaffStore} {key : String} {u : StaffUser}
    (hs : StoreInv s)
    (hu : 0 ≤ u.currentChatCount ∧ u.currentChatCount ≤ u.maxConcurrentChats) :
    StoreInv (alSet s key u) := by
  intro kv hkv
  rcases mem_alSet key u s kv hkv with h | h
  · subst h
    exact hu
  · exact hs kv h

/-- assignChat preserves the load invariant. -/
theorem StoreInv_assignChat (s : StaffStore) (i : String) (hs : StoreInv s) :
    StoreInv (assignChat s i).2 := by
  unfold assignChat
  cases hg : alGet s i with
  | none => exact hs
  | some u =>
    have hu := hs (i, u) (alGet_mem i u s hg)
    by_cases hcap : u.currentChatCount ≥ u.maxConcurrentChats
    · simp only [hcap, if_true]
      exact hs
    · simp only [hcap, if_false]
      refine StoreInv_alSet hs ?_
      simp only at hu ⊢
      omega

/-- unassignChat preserves the load invariant. -/
theorem StoreInv_unassignChat (s : StaffStore) (i : String) (hs : StoreInv s) :
    StoreInv (unassignChat s i).2 := by
  unfold unassignChat
  cases hg : alGet s i with
  | none => exact hs
  | some u =>
    have hu := hs (i, u) (alGet_mem i u s hg)
    simp only
    refine StoreInv_alSet hs ?_
    simp only at hu ⊢
    constructor
    · exact le_max_left _ _
    · exact max_le (by omega) (by omega)

/-- The load invariant is preserved by every sequence of load calls. -/
theorem StoreInv_applyOps (ops : List StaffOp) :
    ∀ s : StaffStore, StoreInv s → StoreInv (applyOps s ops) := by
  induction ops with
  | nil => intro s hs; exact hs
  | cons op rest ih =>
    intro s hs
    have h1 : StoreInv (applyOp s op) := by
      cases op with
      | inc i => exact StoreInv_assignChat s i hs
      | dec i => exact StoreInv_unassignChat s i hs
    exact ih (applyOp s op) h1

/-- Claim C5: for all sequences of incrementLoad (assignChat) and
decrementLoad (unassignChat) calls, every stored staff member satisfies
0 ≤ currentChatCount ≤ maxConcurrentChats after every call; assignChat
returns false without any mutation when currentChatCount has reached
maxConcurrentChats; and unassignChat never drives a count below zero. -/
theorem c5_load_bounds (s : StaffStore) (ops : List StaffOp) (h : StoreInv s) :
    StoreInv (applyOps s ops) ∧
    (∀ i u, findById s i = some u → u.currentChatCount ≥ u.maxConcurrentChats →
      assignChat s i = (false, s)) ∧
    (∀ kv ∈ applyOps s ops, 0 ≤ kv.2.currentChatCount) := by
  refine ⟨StoreInv_applyOps ops s h, ?_, ?_⟩
  · intro i u hg hcap
    unfold assignChat
    rw [show alGet s i = some u from hg]
    simp only [hcap, if_true]
  · intro kv hkv
    exact (StoreInv_applyOps ops s h kv hkv).1

/-- Witness for C5 at a concrete store and call sequence: A with capacity 2
driven up and past capacity and back below zero. -/
theorem c5_load_bounds_witness :
    StoreInv (applyOps c5Store c5Ops) ∧
    (∀ i u, findById c5Store i = some u →
      u.currentChatCount ≥ u.maxConcurrentChats →
      assignChat c5Store i = (false, c5Store)) ∧
    (∀ kv ∈ applyOps c5Store c5Ops, 0 ≤ kv.2.currentChatCount) :=
  c5_load_bounds c5Store c5Ops (by unfold StoreInv; decide)

/-- Claim C1 (code bug): the claim says a customer message on a session in
status with_staff triggers zero AI invocations and is forwarded to staff
instead; the send_message handler never reads the session status, so on
c1World (session S1 in with_staff) a customer message performs exactly one
AI subsystem invocation and broadcasts the AI reply to the session room. -/
theorem c1_ai_called_despite_with_staff :
    (alGet c1World.sessions "S1").map ChatSession.status =
      some SessionStatus.with_staff ∧
    (sendMessage c1World "S1" "hello" ClientRole.customer "ai reply").1.aiCalls = 1 ∧
    (sendMessage c1World "S1" "hello" ClientRole.customer "ai reply").2 =
      [Emit.newMessage "S1" "hello" MsgRole.user,
        Emit.newMessage "S1" "ai reply" MsgRole.assistant] := by
  refine ⟨rfl, rfl, rfl⟩

/-- Claim C2 (code bug): the claim says completion is idempotent (load
decremented exactly once across repeated calls) and that transfer/complete
on a completed sessionId are no-ops; completeAssignment never checks the
stored status, so on c2Assigned (staff A holding S1 and S2, load 2) one
completion of S1 leaves A's load at 1, a second completion of S1 decrements
again to 0, and a transfer of the completed S1 from A to B still succeeds
and raises B's load. -/
theorem c2_completion_not_idempotent :
    (getAssignment c2Once.assignments "S1").map StaffAssignment.status =
      some AssignmentStatus.completed ∧
    (findById c2Once.staff "A").map StaffUser.currentChatCount = some 1 ∧
    (findById c2Twice.staff "A").map StaffUser.currentChatCount = some 0 ∧
    (transferChat c2Twice "S1" "A" "B" 2).1.success = true ∧
    (findById (transferChat c2Twice "S1" "A" "B" 2).2.staff "B").map
      StaffUser.currentChatCount = some 1 := by
  refine ⟨rfl, rfl, rfl, rfl, rfl⟩

/-- Claim C3 (code bug): the claim says creating an assignment for a session
that already has a non-terminal assignment to a different staff member fails
with Conflict and leaves loads unchanged, and that re-creating with the same
staff member is idempotent; assignChatToStaff performs no such check, so on
c3Assigned (S1 held by A, load 1) assigning S1 to B succeeds, overwrites the
ledger record to B, increments B, and leaves A's load stuck at 1, while
re-assigning S1 to A raises A's load to 2 instead of being idempotent. -/
theorem c3_no_conflict_check :
    (assignChatToStaff c3Assigned "S1" "B" 1).1.success = true ∧
    (getAssignment (assignChatToStaff c3Assigned "S1" "B" 1).2.assignments "S1").map
      StaffAssignment.staffId = some "B" ∧
    (findById (assignChatToStaff c3Assigned "S1" "B" 1).2.staff "A").map
      StaffUser.currentChatCount = some 1 ∧
    (findById (assignChatToStaff c3Assigned "S1" "B" 1).2.staff "B").map
      StaffUser.currentChatCount = some 1 ∧
    (findById (assignChatToStaff c3Assigned "S1" "A" 1).2.staff "A").map
      StaffUser.currentChatCount = some 2 := by
  refine ⟨rfl, rfl, rfl, rfl, rfl⟩

/-- Claim C4 (code bug): the claim says enqueuing a sessionId already present
in the queue fails with AlreadyQueued and adds no second entry;
addToQueue performs no membership check, so enqueuing S1 twice yields a
queue of length 2 with both entries carrying sessionId S1. -/
theorem c4_duplicate_enqueue_accepted :
    ((addToQueue (addToQueue [] "S1" Priority.medium 0).2 "S1" Priority.medium 1).2).length
      = 2 ∧
    ((addToQueue (addToQueue [] "S1" Priority.medium 0).2 "S1" Priority.medium 1).2).all
      (fun i => decide (i.sessionId = "S1")) = true := by
  refine ⟨rfl, rfl⟩

/-- Claim C8 (code bug): the claim says auto-assignment runs after every
completion that frees capacity and whenever a staff member comes online; the
staff_status_update handler only updates the status and broadcasts, and the
complete_chat handler only completes and notifies, so on c8World (S1 queued,
A offline) bringing A online leaves S1 queued with no assignment even though
A is then available, and on c8WorldB (S1 queued, A at capacity with S2)
completing S2 frees A yet S1 stays queued and unassigned. -/
theorem c8_no_auto_assign_trigger :
    (findById (staffStatusUpdate c8World "A" StaffStatus.online).1.sys.staff "A").map
      StaffUser.status = some StaffStatus.online ∧
    (getAvailableStaff (staffStatusUpdate c8World "A" StaffStatus.online).1.sys.staff).length
      = 1 ∧
    (staffStatusUpdate c8World "A" StaffStatus.online).1.sys.queue = c8World.sys.queue ∧
    (staffStatusUpdate c8World "A" StaffStatus.online).1.sys.assignments = [] ∧
    (findById (completeChat c8WorldB "S2").1.sys.staff "A").map
      StaffUser.currentChatCount = some 0 ∧
    (completeChat c8WorldB "S2").1.sys.queue = c8WorldB.sys.queue ∧
    getAssignment (completeChat c8WorldB "S2").1.sys.assignments "S1" = none := by
  refine ⟨rfl, rfl, rfl, rfl, rfl, rfl, rfl⟩

/-- Claim C6: for any nonempty queue, the entry removed and returned by the
dequeue step of assignNextChat is of maximal priority rank and, within that
rank, of minimal enqueue timestamp (queueRel head x holds for every queued
x); and enqueuing sessions with priorities [low, high, medium] in that order
and dequeuing three times yields the order [high, medium, low]. -/
theorem c6_queue_ordering (q : QueueStore) (hne : q ≠ []) :
    (∃ hd q', dequeueHead q = some (hd, q') ∧ ∀ x ∈ q, queueRel hd x) ∧
    dequeueSessions 3 c6Queue = ["H", "M", "L"] := by
  constructor
  · have hs : List.Sorted queueRel (getQueue q) := List.sorted_insertionSort queueRel q
    have hp : List.Perm (getQueue q) q := List.perm_insertionSort queueRel q
    cases hgq : getQueue q with
    | nil =>
      rw [hgq] at hp
      exact absurd hp.symm.eq_nil hne
    | cons hd tl =>
      refine ⟨hd, (removeFromQueue q hd.sessionId).2, ?_, ?_⟩
      · rw [dequeueHead, hgq]
      · intro x hx
        have hx' : x ∈ getQueue q := hp.mem_iff.mpr hx
        rw [hgq] at hx' hs
        rcases List.mem_cons.mp hx' with rfl | hmem
        · exact Or.inr ⟨rfl, le_refl _⟩
        · exact (List.sorted_cons.mp hs).1 x hmem
  · rfl

/-- Witness for C6 at the concrete three-entry queue. -/
theorem c6_queue_ordering_witness :
    (∃ hd q', dequeueHead c6Queue = some (hd, q') ∧ ∀ x ∈ c6Queue, queueRel hd x) ∧
    dequeueSessions 3 c6Queue = ["H", "M", "L"] :=
  c6_queue_ordering c6Queue (by decide)

/-- Claim C7: transferChat fails with the mismatch error when the stored
assignment's staffId differs from fromStaffId, and fails with the capacity
error when the assignment matches but the target staff member's load has
reached their maximum; in both cases the returned state is exactly the input
state, so the ledger and every load count are unchanged. -/
theorem c7_transfer_failure_atomic (s : SysState) (sessionId fromStaffId toStaffId : String)
    (now : Nat) (a : StaffAssignment)
    (ha : getAssignment s.assignments sessionId = some a) :
    (a.staffId ≠ fromStaffId →
      transferChat s sessionId fromStaffId toStaffId now =
        ({ success := false, error := some "Assignment not found or staff mismatch" }, s)) ∧
    (∀ tgt, a.staffId = fromStaffId →
      (getAllStaff s.staff).find? (fun u => decide (u.id = toStaffId)) = some tgt →
      tgt.currentChatCount ≥ tgt.maxConcurrentChats →
      transferChat s sessionId fromStaffId toStaffId now =
        ({ success := false, error := some "Target staff member at maximum capacity" }, s)) := by
  constructor
  · intro hmm
    unfold transferChat
    rw [ha]
    simp only [hmm, ne_eq, not_false_eq_true, if_true]
  · intro tgt heq hfind hcap
    unfold transferChat
    rw [ha]
    simp only [heq, ne_eq, not_true_eq_false, if_false]
    rw [hfind]
    simp only [hcap, if_true]

/-- Witness for C7 at c7State: a mismatch call and an at-capacity call both
return the input state unchanged. -/
theorem c7_transfer_failure_atomic_witness :
    transferChat c7State "S1" "B" "A" 0 =
      ({ success := false, error := some "Assignment not found or staff mismatch" }, c7State) ∧
    transferChat c7State "S1" "A" "B" 0 =
      ({ success := false, error := some "Target staff member at maximum capacity" }, c7State) :=
  ⟨(c7_transfer_failure_atomic c7State "S1" "B" "A" 0 c7Asg (by decide)).1 (by decide),
    (c7_transfer_failure_atomic c7State "S1" "A" "B" 0 c7Asg (by decide)).2 c7B (by decide)
      (by decide) (by decide)⟩

/-- The reduce of assignNextChat returns one of the candidates. -/
theorem chooseBest_mem (l : List StaffUser) :
    ∀ b : StaffUser, chooseBest b l ∈ b :: l := by
  induction l with
  | nil =>
    intro b
    rw [chooseBest]
    exact List.mem_cons_self _ _
  | cons cur rest ih =>
    intro b
    rw [chooseBest]
    by_cases hc : cur.currentChatCount < b.currentChatCount
    · simp only [if_pos hc]
      rcases List.mem_cons.mp (ih cur) with h | h
      · rw [h]
        exact List.mem_cons_of_mem _ (List.mem_cons_self _ _)
      · exact List.mem_cons_of_mem _ (List.mem_cons_of_mem _ h)
    · simp only [if_neg hc]
      rcases List.mem_cons.mp (ih b) with h | h
      · rw [h]
        exact List.mem_cons_self _ _
      · exact List.mem_cons_of_mem _ (List.mem_cons_of_mem _ h)

/-- The reduce of assignNextChat returns a candidate of minimal load. -/
theorem chooseBest_min (l : List StaffUser) :
    ∀ b : StaffUser, ∀ x ∈ b :: l,
      (chooseBest b l).currentChatCount ≤ x.currentChatCount := by
  induction l with
  | nil =>
    intro b x hx
    rw [chooseBest]
    rcases List.mem_cons.mp hx with rfl | h
    · exact le_refl _
    · simp at h
  | cons cur rest ih =>
    intro b x hx
    rw [chooseBest]
    by_cases hc : cur.currentChatCount < b.currentChatCount
    · simp only [if_pos hc]
      rcases List.mem_cons.mp hx with rfl | hx'
      · exact le_trans (ih cur cur (List.mem_cons_self _ _)) (le_of_lt hc)
      · exact ih cur x hx'
    · simp only [if_neg hc]
      rcases List.mem_cons.mp hx with rfl | hx'
      · exact ih x x (List.mem_cons_self _ _)
      · rcases List.mem_cons.mp hx' with rfl | hx''
        · exact le_trans (ih b b (List.mem_cons_self _ _)) (le_of_not_lt hc)
        · exact ih b x (List.mem_cons_of_mem _ hx'')

/-- The reduce of assignNextChat returns the first candidate attaining the
minimal load: every candidate before it is strictly more loaded. -/
theorem chooseBest_first (l : List StaffUser) :
    ∀ b : StaffUser, ∃ l₁ l₂, b :: l = l₁ ++ chooseBest b l :: l₂ ∧
      ∀ x ∈ l₁, (chooseBest b l).currentChatCount < x.currentChatCount := by
  induction l with
  | nil =>
    intro b
    refine ⟨[], [], ?_, ?_⟩
    · rw [chooseBest]
      rfl
    · intro x hx
      simp at hx
  | cons cur rest ih =>
    intro b
    rw [chooseBest]
    by_cases hc : cur.currentChatCount < b.currentChatCount
    · simp only [if_pos hc]
      obtain ⟨m₁, m₂, heq, hlt⟩ := ih cur
      refine ⟨b :: m₁, m₂, ?_, ?_⟩
      · rw [List.cons_append, ← heq]
      · intro x hx
        rcases List.mem_cons.mp hx with rfl | hx'
        · exact lt_of_le_of_lt (chooseBest_min rest cur cur (List.mem_cons_self _ _)) hc
        · exact hlt x hx'
    · simp only [if_neg hc]
      obtain ⟨m₁, m₂, heq, hlt⟩ := ih b
      cases m₁ with
      | nil =>
        rw [List.nil_append] at heq
        injection heq with h1 h2
        refine ⟨[], cur :: rest, ?_, ?_⟩
        · rw [List.nil_append, ← h1]
        · intro x hx
          simp at hx
      | cons y m₁' =>
        rw [List.cons_append] at heq
        injection heq with h1 h2
        subst h1
        refine ⟨b :: cur :: m₁', m₂, ?_, ?_⟩
        · rw [List.cons_append, List.cons_append, ← h2]
        · intro x hx
          rcases List.mem_cons.mp hx with rfl | hx'
          · exact hlt x (List.mem_cons_self _ _)
          · rcases List.mem_cons.mp hx' with rfl | hx''
            · exact lt_of_lt_of_le (hlt b (List.mem_cons_self _ _)) (le_of_not_lt hc)
            · exact hlt x (List.mem_cons_of_mem _ hx'')

/-- Claim C9: the auto-assignment candidate pool is exactly the staff with
status online and currentChatCount below maxConcurrentChats, and among the
candidates assignNextChat assigns to the least-loaded one, breaking load
ties deterministically in favour of the first candidate encountered. -/
theorem c9_least_loaded_routing (s : SysState) (now : Nat) :
    getAvailableStaff s.staff =
      (getAllStaff s.staff).filter
        (fun u => decide (u.status = StaffStatus.online ∧
          u.currentChatCount < u.maxConcurrentChats)) ∧
    (∀ h t, getAvailableStaff s.staff = h :: t →
      chooseBest h t ∈ h :: t ∧
      (∀ x ∈ h :: t, (chooseBest h t).currentChatCount ≤ x.currentChatCount) ∧
      (∃ l₁ l₂, h :: t = l₁ ++ chooseBest h t :: l₂ ∧
        ∀ x ∈ l₁, (chooseBest h t).currentChatCount < x.currentChatCount) ∧
      (∀ a, (assignNextChat s now).1.assignment = some a →
        a.staffId = (chooseBest h t).id)) := by
  constructor
  · unfold getAvailableStaff getOnlineStaff getAllStaff
    rw [List.filter_filter]
    congr 1
    funext u
    by_cases h1 : u.status = StaffStatus.online
    · by_cases h2 : u.currentChatCount < u.maxConcurrentChats <;> simp [h1, h2]
    · simp [h1]
  · intro h t hav
    refine ⟨chooseBest_mem t h, chooseBest_min t h, chooseBest_first t h, ?_⟩
    intro a ha
    unfold assignNextChat at ha
    cases hq : getQueue s.queue with
    | nil =>
      rw [hq] at ha
      simp at ha
    | cons nextChat rest =>
      rw [hq, hav] at ha
      by_cases hr : (assignChat s.staff (chooseBest h t).id).1
      · simp only [hr, if_true, assignSession] at ha
        injection ha with ha'
        rw [← ha']
      · simp only [hr, if_false] at ha
        simp at ha

/-- Witness for C9 at c9State: candidates are [A (load 1), B (load 0),
C (load 0)] and the first minimal-load candidate B is chosen. -/
theorem c9_least_loaded_routing_witness :
    chooseBest c9A [c9B, c9C] ∈ c9A :: [c9B, c9C] ∧
    (∀ x ∈ c9A :: [c9B, c9C],
      (chooseBest c9A [c9B, c9C]).currentChatCount ≤ x.currentChatCount) ∧
    (∃ l₁ l₂, c9A :: [c9B, c9C] = l₁ ++ chooseBest c9A [c9B, c9C] :: l₂ ∧
      ∀ x ∈ l₁, (chooseBest c9A [c9B, c9C]).currentChatCount < x.currentChatCount) ∧
    (∀ a, (assignNextChat c9State 7).1.assignment = some a →
      a.staffId = (chooseBest c9A [c9B, c9C]).id) :=
  (c9_least_loaded_routing c9State 7).2 c9A [c9B, c9C] (by decide)

/-- Claim C10: in the assign_chat handler without an explicit staffId, the
assignment created by auto-assignment is for the current queue head's
sessionId, while on success the handler marks the event's sessionId
with_staff and notifies that event's session; so whenever the event's
sessionId differs from the queue head, the session marked and notified
differs from the session recorded in the new assignment. -/
theorem c10_auto_assign_session_mismatch (w : World) (sid : String) (now : Nat)
    (hd : ChatQueue) (tl : List ChatQueue) (hq : getQueue w.sys.queue = hd :: tl)
    (a : StaffAssignment) (ha : (assignNextChat w.sys now).1.assignment = some a) :
    a.sessionId = hd.sessionId ∧
    (assignChatHandler w sid none now).1.sessions =
      updateSessionStatus w.sessions sid SessionStatus.with_staff ∧
    (assignChatHandler w sid none now).2 =
      [Emit.chatAssigned a.staffId sid, Emit.staffJoined sid a.staffId] ∧
    (sid ≠ hd.sessionId → a.sessionId ≠ sid) := by
  have hsucc : (assignNextChat w.sys now).1.success = true ∧ a.sessionId = hd.sessionId := by
    unfold assignNextChat at ha ⊢
    rw [hq] at ha ⊢
    cases hav : getAvailableStaff w.sys.staff with
    | nil =>
      rw [hav] at ha
      simp at ha
    | cons h t =>
      rw [hav] at ha
      by_cases hr : (assignChat w.sys.staff (chooseBest h t).id).1 = true
      · simp only [hr, if_true, assignSession] at ha ⊢
        injection ha with ha'
        refine ⟨trivial, ?_⟩
        rw [← ha']
      · simp only [hr, if_false] at ha
        simp at ha
  refine ⟨hsucc.2, ?_, ?_, ?_⟩
  · unfold assignChatHandler
    simp only [ha, hsucc.1]
  · unfold assignChatHandler
    simp only [ha, hsucc.1]
  · intro hne hcon
    rw [hsucc.2] at hcon
    exact hne hcon.symm

/-- Witness for C10 at c10World: the event names session E, the queue head is
session H, the created assignment records H, yet E is the session marked
with_staff and notified. -/
theorem c10_auto_assign_session_mismatch_witness :
    c10Asg.sessionId = c10Head.sessionId ∧
    (assignChatHandler c10World "E" none 5).1.sessions =
      updateSessionStatus c10World.sessions "E" SessionStatus.with_staff ∧
    (assignChatHandler c10World "E" none 5).2 =
      [Emit.chatAssigned c10Asg.staffId "E", Emit.staffJoined "E" c10Asg.staffId] ∧
    ("E" ≠ c10Head.sessionId → c10Asg.sessionId ≠ "E") :=
  c10_auto_assign_session_mismatch c10World "E" 5 c10Head [] (by decide) c10Asg (by decide)

end Mtom
